import Mathlib

/-!
Verification of the bento-cbor processor plugin (CBOR <-> JSON value-model
bridge) against its natural-language specification.

The repository's own logic is embedded shallowly:

* `GoVal` models the dynamically-typed Go value (`any`) produced by the CBOR
  decoder in the first processor variant: scalars, `[]any` slices,
  `map[interface{}]interface{}` maps and `map[string]any` maps.  CBOR floats
  and byte-string values are outside the scope of the claims checked here and
  are omitted from the model.
* `convertToStringKeyMap` is a direct translation of the Go helper of the same
  name.  A Go `map` is iterated in an unspecified order; an entry list here
  represents one concrete iteration order, and `insertStr` models the Go map
  assignment `m[keyStr] = ...` (overwrite on an existing key, append
  otherwise).
* The two message operators are embedded as pure state transformers over a
  `Codec` record that stands for the external CBOR/JSON codec calls the Go
  code delegates to.
-/

/-- Dynamically-typed Go value as produced by the generic CBOR decode
(`var decoded any`).  `vmapI` is `map[interface{}]interface{}` (its entry list
records one Go map iteration order), `vmapS` is `map[string]any`,
`varr` is `[]any`.  Integers decoded from CBOR arrive as `uint64`/`int64`;
both are modelled by `vint`. -/
inductive GoVal where
  | vnull : GoVal
  | vbool (b : Bool) : GoVal
  | vint (n : Int) : GoVal
  | vstr (s : String) : GoVal
  | varr (xs : List GoVal) : GoVal
  | vmapI (es : List (GoVal × GoVal)) : GoVal
  | vmapS (es : List (String × GoVal)) : GoVal

/-- Go map assignment `m[k] = v` on a `map[string]any`, with the map realised
as an association list: overwrite the binding if the key is present, append
otherwise. -/
def insertStr (m : List (String × GoVal)) (k : String) (v : GoVal) :
    List (String × GoVal) :=
  if m.any (fun p => p.1 = k) then
    m.map (fun p => if p.1 = k then (k, v) else p)
  else
    m ++ [(k, v)]

mutual

/-- Go `fmt.Sprintf("%v", k)` restricted to the value domain of `GoVal`:
`nil` renders as `<nil>`, booleans as `true`/`false`, integers in decimal,
strings as themselves.  Composite values render in Go's bracketed form;
note that slices and maps are unhashable in Go and therefore can never occur
as decoded CBOR map keys, so those branches are unreachable in the pipeline
(fmt additionally sorts map keys, which is irrelevant for unreachable input
and not modelled). -/
def sprintV : GoVal → String
  | .vnull => "<nil>"
  | .vbool true => "true"
  | .vbool false => "false"
  | .vint n => toString n
  | .vstr s => s
  | .varr xs => "[" ++ sprintVList xs ++ "]"
  | .vmapI es => "map[" ++ sprintVEntriesI es ++ "]"
  | .vmapS es => "map[" ++ sprintVEntriesS es ++ "]"

/-- Space-separated rendering of slice elements, as Go `fmt` does. -/
def sprintVList : List GoVal → String
  | [] => ""
  | [x] => sprintV x
  | x :: xs => sprintV x ++ " " ++ sprintVList xs

/-- Space-separated `k:v` rendering of generic-map entries, as Go `fmt` does. -/
def sprintVEntriesI : List (GoVal × GoVal) → String
  | [] => ""
  | [(k, v)] => sprintV k ++ ":" ++ sprintV v
  | (k, v) :: es => sprintV k ++ ":" ++ sprintV v ++ " " ++ sprintVEntriesI es

/-- Space-separated `k:v` rendering of string-map entries, as Go `fmt` does. -/
def sprintVEntriesS : List (String × GoVal) → String
  | [] => ""
  | [(k, v)] => k ++ ":" ++ sprintV v
  | (k, v) :: es => k ++ ":" ++ sprintV v ++ " " ++ sprintVEntriesS es

end

mutual

/-- Direct translation of the Go helper `convertToStringKeyMap` (part_000):
a `map[interface{}]interface{}` becomes a fresh `map[string]any` by inserting
`fmt.Sprintf("%v", k) -> convertToStringKeyMap(v)` for each entry in
iteration order; a `map[string]any` is rebuilt the same way with its keys
kept; a `[]any` is converted elementwise in place; everything else is
returned unchanged. -/
def convertToStringKeyMap : GoVal → GoVal
  | .vnull => .vnull
  | .vbool b => .vbool b
  | .vint n => .vint n
  | .vstr s => .vstr s
  | .varr xs => .varr (convertListElems xs)
  | .vmapI es => .vmapS (convertFoldI [] es)
  | .vmapS es => .vmapS (convertFoldS [] es)

/-- The `for i, v := range x { x[i] = convertToStringKeyMap(v) }` loop of the
`[]any` case. -/
def convertListElems : List GoVal → List GoVal
  | [] => []
  | x :: xs => convertToStringKeyMap x :: convertListElems xs

/-- The `for k, v := range x { m[keyStr] = ... }` loop of the
`map[interface{}]interface{}` case, `m` being the accumulator. -/
def convertFoldI (m : List (String × GoVal)) :
    List (GoVal × GoVal) → List (String × GoVal)
  | [] => m
  | (k, v) :: es => convertFoldI (insertStr m (sprintV k) (convertToStringKeyMap v)) es

/-- The `for k, v := range x { m[k] = ... }` loop of the `map[string]any`
case. -/
def convertFoldS (m : List (String × GoVal)) :
    List (String × GoVal) → List (String × GoVal)
  | [] => m
  | (k, v) :: es => convertFoldS (insertStr m k (convertToStringKeyMap v)) es

end

mutual

/-- Checks that every mapping node of a value tree carries only text-string
keys, at every depth: a `vmapI` node is accepted only when each of its keys is
a `vstr`, and values and sequence elements are checked recursively. -/
def allStringKeys : GoVal → Bool
  | .vnull => true
  | .vbool _ => true
  | .vint _ => true
  | .vstr _ => true
  | .varr xs => allStringKeysList xs
  | .vmapI es => allStringKeysEntriesI es
  | .vmapS es => allStringKeysEntriesS es

/-- Elementwise `allStringKeys` over a slice. -/
def allStringKeysList : List GoVal → Bool
  | [] => true
  | x :: xs => allStringKeys x && allStringKeysList xs

/-- Keys of a generic map must be text strings; values are checked
recursively. -/
def allStringKeysEntriesI : List (GoVal × GoVal) → Bool
  | [] => true
  | (k, v) :: es =>
    (match k with | .vstr _ => true | _ => false) &&
      allStringKeys v && allStringKeysEntriesI es

/-- Values of a string-keyed map are checked recursively. -/
def allStringKeysEntriesS : List (String × GoVal) → Bool
  | [] => true
  | (_, v) :: es => allStringKeys v && allStringKeysEntriesS es

end

theorem allStringKeysEntriesS_eq_forall (m : List (String × GoVal)) :
    allStringKeysEntriesS m = true ↔ ∀ p ∈ m, allStringKeys p.2 = true := by
  induction m with
  | nil => simp [allStringKeysEntriesS]
  | cons p m ih =>
    obtain ⟨k, v⟩ := p
    simp [allStringKeysEntriesS, ih]

theorem allStringKeysEntriesS_insertStr (m : List (String × GoVal))
    (k : String) (v : GoVal) (hm : allStringKeysEntriesS m = true)
    (hv : allStringKeys v = true) :
    allStringKeysEntriesS (insertStr m k v) = true := by
  rw [allStringKeysEntriesS_eq_forall] at hm ⊢
  intro p hp
  unfold insertStr at hp
  split at hp
  · rcases List.mem_map.1 hp with ⟨q, hq, hfq⟩
    by_cases h : q.1 = k
    · rw [if_pos h] at hfq
      subst hfq; exact hv
    · rw [if_neg h] at hfq
      subst hfq; exact hm q hq
  · rcases List.mem_append.1 hp with h | h
    · exact hm p h
    · rcases List.mem_singleton.1 h with rfl
      exact hv

mutual

theorem allStringKeys_convert (v : GoVal) :
    allStringKeys (convertToStringKeyMap v) = true := by
  match v with
  | .vnull => rfl
  | .vbool b => rfl
  | .vint n => rfl
  | .vstr s => rfl
  | .varr xs =>
    simpa [convertToStringKeyMap, allStringKeys] using allStringKeys_convertList xs
  | .vmapI es =>
    simpa [convertToStringKeyMap, allStringKeys] using
      allStringKeys_convertFoldI [] es rfl
  | .vmapS es =>
    simpa [convertToStringKeyMap, allStringKeys] using
      allStringKeys_convertFoldS [] es rfl

theorem allStringKeys_convertList (xs : List GoVal) :
    allStringKeysList (convertListElems xs) = true := by
  match xs with
  | [] => rfl
  | x :: xs =>
    simp [convertListElems, allStringKeysList, allStringKeys_convert x,
      allStringKeys_convertList xs]

theorem allStringKeys_convertFoldI (m : List (String × GoVal))
    (es : List (GoVal × GoVal)) (hm : allStringKeysEntriesS m = true) :
    allStringKeysEntriesS (convertFoldI m es) = true := by
  match es with
  | [] => simpa [convertFoldI] using hm
  | (k, v) :: es =>
    exact allStringKeys_convertFoldI _ es
      (allStringKeysEntriesS_insertStr _ _ _ hm (allStringKeys_convert v))

theorem allStringKeys_convertFoldS (m : List (String × GoVal))
    (es : List (String × GoVal)) (hm : allStringKeysEntriesS m = true) :
    allStringKeysEntriesS (convertFoldS m es) = true := by
  match es with
  | [] => simpa [convertFoldS] using hm
  | (k, v) :: es =>
    exact allStringKeys_convertFoldS _ es
      (allStringKeysEntriesS_insertStr _ _ _ hm (allStringKeys_convert v))

end

/-- C1: for every value tree decoded from CBOR (any nesting of maps,
sequences and scalars, with keys of any type), the tree produced by
`convertToStringKeyMap` contains only text-string keys in every mapping node
at every depth. -/
theorem claim_C1_key_normalization_totality (v : GoVal) :
    allStringKeys (convertToStringKeyMap v) = true :=
  allStringKeys_convert v

theorem convertListElems_eq_map (xs : List GoVal) :
    convertListElems xs = xs.map convertToStringKeyMap := by
  induction xs with
  | nil => rfl
  | cons x xs ih => simp [convertListElems, ih]

/-- C8: normalization maps a sequence node to a sequence node of the same
length, and element `i` of the output is the normalization of element `i` of
the input, for every index. -/
theorem claim_C8_order_preservation (xs : List GoVal) :
    ∃ ys : List GoVal, ∃ hlen : ys.length = xs.length,
      convertToStringKeyMap (.varr xs) = .varr ys ∧
      ∀ i : Fin xs.length,
        ys.get (Fin.cast hlen.symm i) = convertToStringKeyMap (xs.get i) := by
  refine ⟨xs.map convertToStringKeyMap, by simp, ?_, ?_⟩
  · simp [convertToStringKeyMap, convertListElems_eq_map]
  · intro i
    simp

/-- C3 counterexample: the Go map with entries `1 ↦ "a"` and `"1" ↦ "b"` is a
single input tree, but iterating it in its two possible orders (Go map
iteration order is unspecified and varies between runs) produces two different
normalized trees, so the collision outcome is not a function of the input
tree alone. -/
theorem claim_C3_counterexample :
    [(GoVal.vint 1, GoVal.vstr "a"), (GoVal.vstr "1", GoVal.vstr "b")].Perm
        [(GoVal.vstr "1", GoVal.vstr "b"), (GoVal.vint 1, GoVal.vstr "a")] ∧
      convertToStringKeyMap
          (.vmapI [(.vint 1, .vstr "a"), (.vstr "1", .vstr "b")]) ≠
        convertToStringKeyMap
          (.vmapI [(.vstr "1", .vstr "b"), (.vint 1, .vstr "a")]) := by
  constructor
  · exact List.Perm.swap _ _ _
  · intro h
    have h2 : GoVal.vmapS [("1", GoVal.vstr "b")] =
        GoVal.vmapS [("1", GoVal.vstr "a")] := h
    simp at h2

theorem insertStr_of_not_mem (m : List (String × GoVal)) (k : String)
    (v : GoVal) (h : k ∉ m.map Prod.fst) : insertStr m k v = m ++ [(k, v)] := by
  unfold insertStr
  rw [if_neg]
  intro hc
  rcases List.any_eq_true.1 hc with ⟨p, hp, hpk⟩
  have hmem : p.1 ∈ m.map Prod.fst := List.mem_map_of_mem Prod.fst hp
  rw [of_decide_eq_true hpk] at hmem
  exact h hmem

theorem convertFoldI_nodup (es : List (GoVal × GoVal))
    (m : List (String × GoVal))
    (h : (es.map fun p => sprintV p.1).Nodup)
    (hdisj : ∀ p ∈ es, sprintV p.1 ∉ m.map Prod.fst) :
    convertFoldI m es =
      m ++ es.map (fun p => (sprintV p.1, convertToStringKeyMap p.2)) := by
  induction es generalizing m with
  | nil => simp [convertFoldI]
  | cons p es ih =>
    obtain ⟨k, v⟩ := p
    rw [convertFoldI]
    rw [insertStr_of_not_mem _ _ _ (hdisj (k, v) (List.mem_cons_self _ _))]
    rw [ih]
    · simp
    · exact (List.nodup_cons.1 h).2
    · intro q hq
      simp only [List.map_append, List.mem_append] at *
      rintro (hmem | hmem)
      · exact hdisj q (List.mem_cons_of_mem _ hq) hmem
      · simp only [List.map_cons, List.mem_singleton, List.map_nil,
          List.mem_cons, List.not_mem_nil] at hmem
        rcases hmem with hmem | hmem
        · exact (List.nodup_cons.1 h).1
            (by simpa [hmem] using List.mem_map_of_mem (fun p => sprintV p.1) hq)
        · exact hmem.elim

/-- C3 amended: normalization is last-write-wins in Go map iteration order,
which is unspecified; determinism holds only in the absence of collisions.
When the text-stringified keys of a generic map are pairwise distinct, any
two iteration orders of the same map produce the same `map[string]any`
result (entry lists that are permutations of one another, i.e. equal as Go
maps). -/
theorem claim_C3_amended_no_collision_determinism (e₁ e₂ : List (GoVal × GoVal))
    (hperm : e₁.Perm e₂)
    (hnodup : (e₁.map fun p => sprintV p.1).Nodup) :
    ∃ l₁ l₂ : List (String × GoVal),
      convertToStringKeyMap (.vmapI e₁) = .vmapS l₁ ∧
      convertToStringKeyMap (.vmapI e₂) = .vmapS l₂ ∧
      l₁.Perm l₂ := by
  have hnodup₂ : (e₂.map fun p => sprintV p.1).Nodup :=
    ((hperm.map _).nodup_iff).1 hnodup
  refine ⟨e₁.map (fun p => (sprintV p.1, convertToStringKeyMap p.2)),
    e₂.map (fun p => (sprintV p.1, convertToStringKeyMap p.2)), ?_, ?_, ?_⟩
  · rw [show convertToStringKeyMap (.vmapI e₁) = .vmapS (convertFoldI [] e₁) from rfl,
      convertFoldI_nodup e₁ [] hnodup (by simp)]
    simp
  · rw [show convertToStringKeyMap (.vmapI e₂) = .vmapS (convertFoldI [] e₂) from rfl,
      convertFoldI_nodup e₂ [] hnodup₂ (by simp)]
    simp
  · exact hperm.map _

/-- Witness for the amended C3 theorem at a concrete collision-free map: the
entries `1 ↦ "a"` and `"2" ↦ "b"` in both iteration orders. -/
theorem claim_C3_amended_witness :
    ∃ l₁ l₂ : List (String × GoVal),
      convertToStringKeyMap
          (.vmapI [(.vint 1, .vstr "a"), (.vstr "2", .vstr "b")]) = .vmapS l₁ ∧
      convertToStringKeyMap
          (.vmapI [(.vstr "2", .vstr "b"), (.vint 1, .vstr "a")]) = .vmapS l₂ ∧
      l₁.Perm l₂ :=
  claim_C3_amended_no_collision_determinism _ _ (List.Perm.swap _ _ _)
    (by decide)

/-- A message as the operators see it: just its byte payload.  Go `[]byte`
is modelled as `String` (a Go string is a byte sequence, and the conversion
`string(bytesContent)` used in the decode error is the identity under this
model).  `AsBytes` on a raw message cannot fail and its error branch is not
modelled. -/
structure Msg where
  payload : String
deriving DecidableEq, Repr

/-- Modelled from the spec: the external codec calls that the processor
delegates to (fxamacker/cbor `Unmarshal`/`Marshal`, encoding/json
`Marshal`/`Unmarshal` — none of them code of this repository).  Each call
either yields a result or an error string; the operator theorems below hold
for every such codec. -/
structure Codec where
  cborDecode : String → Except String GoVal
  jsonMarshal : GoVal → Except String String
  jsonParse : String → Except String GoVal
  cborEncode : GoVal → Except String String

/-- Error text of `fmt.Errorf("failed to decode CBOR: %w %s", err,
string(bytesContent))` in the to_json operator: it embeds the payload. -/
def decodeCBORErrMsg (err payload : String) : String :=
  "failed to decode CBOR: " ++ err ++ " " ++ payload

/-- Error text of `fmt.Errorf("failed to parse JSON: %w", err)` in the
from_json operator: it is built from the codec error alone and takes no
payload argument. -/
def parseJSONErrMsg (err : String) : String :=
  "failed to parse JSON: " ++ err

/-- The to_json operator (part_000): decode CBOR, normalize keys with
`convertToStringKeyMap`, marshal to JSON, and only then `SetBytes`.  The
result is the returned Go error (if any) together with the message after the
call. -/
def toJsonOperator (c : Codec) (msg : Msg) : Option String × Msg :=
  match c.cborDecode msg.payload with
  | .error e => (some (decodeCBORErrMsg e msg.payload), msg)
  | .ok decoded =>
    match c.jsonMarshal (convertToStringKeyMap decoded) with
    | .error e => (some ("failed to convert CBOR to JSON: " ++ e), msg)
    | .ok jsonData => (none, ⟨jsonData⟩)

/-- The from_json operator: parse JSON, encode the parsed value to CBOR, and
only then `SetBytes`. -/
def fromJsonOperator (c : Codec) (msg : Msg) : Option String × Msg :=
  match c.jsonParse msg.payload with
  | .error e => (some (parseJSONErrMsg e), msg)
  | .ok jsonData =>
    match c.cborEncode jsonData with
    | .error e => (some ("failed to encode JSON to CBOR: " ++ e), msg)
    | .ok cborData => (none, ⟨cborData⟩)

/-- C5: whenever the CBOR decode of the payload fails, the to_json operator
returns an error and leaves the payload untouched (no panic is modelled:
every function here is total; no silent empty output: the message still
holds its original payload); and symmetrically for the from_json operator on
a failed JSON parse. -/
theorem claim_C5_invalid_input_rejection (c : Codec) (msg : Msg)
    (e₁ e₂ : String) :
    (c.cborDecode msg.payload = .error e₁ →
      (toJsonOperator c msg).1.isSome = true ∧ (toJsonOperator c msg).2 = msg) ∧
    (c.jsonParse msg.payload = .error e₂ →
      (fromJsonOperator c msg).1.isSome = true ∧
        (fromJsonOperator c msg).2 = msg) := by
  constructor
  · intro h
    simp [toJsonOperator, h]
  · intro h
    simp [fromJsonOperator, h]

/-- Codec instance used by the operator witnesses: decoding and parsing fail
with fixed diagnostics, marshalling succeeds. -/
def witnessFailingCodec : Codec where
  cborDecode := fun _ => .error "unexpected EOF"
  jsonMarshal := fun _ => .ok "null"
  jsonParse := fun _ => .error "unexpected end of JSON input"
  cborEncode := fun _ => .ok "out"

/-- Witness for C5 at the concrete payload `bad` under a codec whose decode
and parse both fail. -/
theorem claim_C5_witness :
    ((toJsonOperator witnessFailingCodec ⟨"bad"⟩).1.isSome = true ∧
      (toJsonOperator witnessFailingCodec ⟨"bad"⟩).2 = ⟨"bad"⟩) ∧
    ((fromJsonOperator witnessFailingCodec ⟨"bad"⟩).1.isSome = true ∧
      (fromJsonOperator witnessFailingCodec ⟨"bad"⟩).2 = ⟨"bad"⟩) :=
  ⟨(claim_C5_invalid_input_rejection witnessFailingCodec ⟨"bad"⟩
      "unexpected EOF" "unexpected end of JSON input").1 rfl,
    (claim_C5_invalid_input_rejection witnessFailingCodec ⟨"bad"⟩
      "unexpected EOF" "unexpected end of JSON input").2 rfl⟩

/-- C10: for either operator, if an error is returned then the message still
carries its original payload: `SetBytes` happens only after decode,
normalization and re-encoding have all succeeded. -/
theorem claim_C10_payload_unchanged_on_error (c : Codec) (msg : Msg) :
    ((toJsonOperator c msg).1.isSome = true → (toJsonOperator c msg).2 = msg) ∧
    ((fromJsonOperator c msg).1.isSome = true →
      (fromJsonOperator c msg).2 = msg) := by
  constructor
  · intro h
    cases hd : c.cborDecode msg.payload with
    | error e => simp [toJsonOperator, hd]
    | ok v =>
      cases hm : c.jsonMarshal (convertToStringKeyMap v) with
      | error e => simp [toJsonOperator, hd, hm]
      | ok out => simp [toJsonOperator, hd, hm] at h
  · intro h
    cases hp : c.jsonParse msg.payload with
    | error e => simp [fromJsonOperator, hp]
    | ok v =>
      cases he : c.cborEncode v with
      | error e => simp [fromJsonOperator, hp, he]
      | ok out => simp [fromJsonOperator, hp, he] at h

/-- Witness for C10 at the concrete payload `bad` under a codec whose decode
and parse both fail. -/
theorem claim_C10_witness :
    (toJsonOperator witnessFailingCodec ⟨"bad"⟩).2 = ⟨"bad"⟩ ∧
    (fromJsonOperator witnessFailingCodec ⟨"bad"⟩).2 = ⟨"bad"⟩ :=
  ⟨(claim_C10_payload_unchanged_on_error witnessFailingCodec ⟨"bad"⟩).1 rfl,
    (claim_C10_payload_unchanged_on_error witnessFailingCodec ⟨"bad"⟩).2 rfl⟩

/-- C4 counterexample: for the invalid JSON payload consisting of the single
byte 0x7b (an opening brace), Go's encoding/json reports
"unexpected end of JSON input" (the same message as for the two-byte payload
of two such braces; `witnessFailingCodec.jsonParse` returns exactly this
message).  The from_json operator wraps only that parser message: the
resulting error text does not contain the payload, and the errors for the
two distinct payloads coincide — refuting the from_json half of the claim. -/
theorem claim_C4_counterexample :
    (fromJsonOperator witnessFailingCodec ⟨"\x7b"⟩).1 =
        some (parseJSONErrMsg "unexpected end of JSON input") ∧
      ¬ ("\x7b".toList <:+:
          (parseJSONErrMsg "unexpected end of JSON input").toList) ∧
      (fromJsonOperator witnessFailingCodec ⟨"\x7b"⟩).1 =
        (fromJsonOperator witnessFailingCodec ⟨"\x7b\x7b"⟩).1 :=
  ⟨rfl, by decide, rfl⟩

/-- C4 amended: only the to_json direction embeds the offending payload in
its decode error (the payload is a substring of the error text); the
from_json parse error is built from the parser's message alone, so two
payloads failing with the same parser message yield identical errors. -/
theorem claim_C4_amended_payload_only_in_cbor_decode_error (c : Codec)
    (m m₁ m₂ : Msg) (e₁ e₂ : String)
    (hd : c.cborDecode m.payload = .error e₁)
    (hp₁ : c.jsonParse m₁.payload = .error e₂)
    (hp₂ : c.jsonParse m₂.payload = .error e₂) :
    ((toJsonOperator c m).1 = some (decodeCBORErrMsg e₁ m.payload) ∧
      m.payload.toList <:+: (decodeCBORErrMsg e₁ m.payload).toList) ∧
    (fromJsonOperator c m₁).1 = (fromJsonOperator c m₂).1 := by
  refine ⟨⟨by simp [toJsonOperator, hd], ?_⟩,
    by simp [fromJsonOperator, hp₁, hp₂]⟩
  refine ⟨("failed to decode CBOR: " ++ e₁ ++ " ").toList, [], ?_⟩
  simp [decodeCBORErrMsg, String.toList]

/-- Witness for the amended C4 theorem: concrete failing decode on payload
`bad` and concrete failing parses on the two brace payloads. -/
theorem claim_C4_amended_witness :
    ((toJsonOperator witnessFailingCodec ⟨"bad"⟩).1 =
        some (decodeCBORErrMsg "unexpected EOF" "bad") ∧
      "bad".toList <:+: (decodeCBORErrMsg "unexpected EOF" "bad").toList) ∧
    (fromJsonOperator witnessFailingCodec ⟨"\x7b"⟩).1 =
      (fromJsonOperator witnessFailingCodec ⟨"\x7b\x7b"⟩).1 :=
  claim_C4_amended_payload_only_in_cbor_decode_error witnessFailingCodec
    ⟨"bad"⟩ ⟨"\x7b"⟩ ⟨"\x7b\x7b"⟩ "unexpected EOF"
    "unexpected end of JSON input" rfl rfl rfl

/-- Modelled from the spec: `PrepareForCBOR` — "Contract: identity — JSON's
data model is already a strict subset of what the configured CBOR encoder
accepts, so no structural transformation is required before encoding."
The from_json code path contains no transformation step at all; this
definition names the spec's identity so the code path can be compared
against it. -/
def prepareForCBOR (v : GoVal) : GoVal := v

/-- C7: when the JSON parse succeeds with value `v`, the from_json operator
hands exactly `v` (the image of the spec's identity `prepareForCBOR`) to the
CBOR encoder and sets the encoder's output as the new payload — in contrast
to the to_json direction, which interposes `convertToStringKeyMap`. -/
theorem claim_C7_from_json_no_transformation (c : Codec) (msg : Msg)
    (v : GoVal) (out : String)
    (hparse : c.jsonParse msg.payload = .ok v)
    (henc : c.cborEncode (prepareForCBOR v) = .ok out) :
    fromJsonOperator c msg = (none, ⟨out⟩) ∧ prepareForCBOR v = v := by
  refine ⟨?_, rfl⟩
  simp only [prepareForCBOR] at henc
  simp [fromJsonOperator, hparse, henc]

/-- Codec instance used by witnesses that need succeeding calls. -/
def witnessOkCodec : Codec where
  cborDecode := fun _ => .ok .vnull
  jsonMarshal := fun _ => .ok "null"
  jsonParse := fun _ => .ok (.vmapS [("a", .vint 1)])
  cborEncode := fun _ => .ok "encoded"

/-- Witness for C7 at a concrete succeeding parse and encode. -/
theorem claim_C7_witness :
    fromJsonOperator witnessOkCodec ⟨"in"⟩ = (none, ⟨"encoded"⟩) ∧
      prepareForCBOR (.vmapS [("a", .vint 1)]) = .vmapS [("a", .vint 1)] :=
  claim_C7_from_json_no_transformation witnessOkCodec ⟨"in"⟩
    (.vmapS [("a", .vint 1)]) "encoded" rfl rfl

/-- Which of the two per-message operations a processor is bound to. -/
inductive OperatorKind where
  | opToJson : OperatorKind
  | opFromJson : OperatorKind
deriving DecidableEq, Repr

/-- The processor record returned by `NewProcessor`.  The encoder and decoder
modes are built from fixed option literals validated by the external codec
(they are accepted — modelled from the spec, which fixes both policy
profiles as valid presets) and carry no information relevant to the claims,
so only the selected operator is recorded. -/
structure CBORProcessor where
  operator : OperatorKind
deriving DecidableEq, Repr

/-- Direct translation of `strToOperator`: the string `to_json` selects the
to_json operation, `from_json` the from_json operation, and anything else is
the error `invalid operator type`. -/
def strToOperator (s : String) : Except String OperatorKind :=
  match s with
  | "to_json" => .ok .opToJson
  | "from_json" => .ok .opFromJson
  | _ => .error "invalid operator type"

/-- Direct translation of `NewProcessor`: resolve the operator string first
and return the error (and no processor) on failure; otherwise build the
encoder/decoder modes (which succeed for the fixed option literals used) and
return the processor bound to the resolved operator. -/
def NewProcessor (s : String) : Except String CBORProcessor :=
  match strToOperator s with
  | .error e => .error e
  | .ok op => .ok ⟨op⟩

/-- C6: every string other than `to_json` and `from_json` makes
`NewProcessor` return an error and no processor, while the two recognized
strings yield a processor bound to the corresponding operation. -/
theorem claim_C6_configuration_rejection (s : String)
    (h₁ : s ≠ "to_json") (h₂ : s ≠ "from_json") :
    NewProcessor s = .error "invalid operator type" ∧
    NewProcessor "to_json" = .ok ⟨.opToJson⟩ ∧
    NewProcessor "from_json" = .ok ⟨.opFromJson⟩ := by
  refine ⟨?_, rfl, rfl⟩
  have hop : strToOperator s = .error "invalid operator type" := by
    unfold strToOperator
    split <;> simp_all
  simp [NewProcessor, hop]

/-- Witness for C6 at the concrete unrecognized operator string `cbor`. -/
theorem claim_C6_witness :
    NewProcessor "cbor" = .error "invalid operator type" ∧
    NewProcessor "to_json" = .ok ⟨.opToJson⟩ ∧
    NewProcessor "from_json" = .ok ⟨.opFromJson⟩ :=
  claim_C6_configuration_rejection "cbor" (by decide) (by decide)

/-- A JSON-representable value, as Go's encoding/json materializes JSON text
into `any`: `nil`, `bool`, numbers, `string`, `[]any` and `map[string]any`.
Numbers are restricted in this development to integers (claim C2 constrains
every number to the exactly-representable integer range of the float64 that
Go uses for JSON numbers, under which that float64 carries the integer
exactly; non-integral numbers are outside the scope of the claims here). -/
inductive JVal where
  | jnull : JVal
  | jbool (b : Bool) : JVal
  | jnum (n : Int) : JVal
  | jstr (s : String) : JVal
  | jarr (xs : List JVal) : JVal
  | jobj (fields : List (String × JVal)) : JVal

/-- Modelled from the spec: a CBOR data item as the external codec's generic
data model presents it — null, booleans, numeric items (integers decode to
`int64`/`uint64`; the floating-point items produced for JSON numbers are
covered by the same constructor under the exactly-representable-integer
restriction), text strings, byte strings (bytes carried as a Go string),
arrays, and maps with arbitrary keys. -/
inductive CVal where
  | cnull : CVal
  | cbool (b : Bool) : CVal
  | cnum (n : Int) : CVal
  | ctext (s : String) : CVal
  | cbytes (s : String) : CVal
  | carr (xs : List CVal) : CVal
  | cmap (es : List (CVal × CVal)) : CVal

mutual

/-- Modelled from the spec: value-level behavior of `encMode.Marshal` under
the part_001 `EncOptions` (`String: StringToByteString` demotes every Go
string, map keys included, to a CBOR byte string; `ByteSliceLaterFormat` and
`ByteArray` are irrelevant because JSON parsing yields no Go byte slices):
null, booleans and numbers are kept, arrays and maps encode elementwise in
order. -/
def encodeValueP1 : JVal → CVal
  | .jnull => .cnull
  | .jbool b => .cbool b
  | .jnum n => .cnum n
  | .jstr s => .cbytes s
  | .jarr xs => .carr (encodeListP1 xs)
  | .jobj fs => .cmap (encodeFieldsP1 fs)

/-- Elementwise encoding of a `[]any`. -/
def encodeListP1 : List JVal → List CVal
  | [] => []
  | x :: xs => encodeValueP1 x :: encodeListP1 xs

/-- Entrywise encoding of a `map[string]any`; keys become byte strings. -/
def encodeFieldsP1 : List (String × JVal) → List (CVal × CVal)
  | [] => []
  | (k, v) :: fs => (.cbytes k, encodeValueP1 v) :: encodeFieldsP1 fs

end

/-- Modelled from the spec: coercion of a CBOR map key when decoding into
`map[string]any` under `MapKeyByteStringAllowed` — text-string and
byte-string keys become Go strings, any other key type is a decode error. -/
def decodeKeyP1 : CVal → Except String String
  | .ctext s => .ok s
  | .cbytes s => .ok s
  | _ => .error "cbor: invalid map key type"

mutual

/-- Modelled from the spec: value-level behavior of `decMode.Unmarshal` into
`any` under the part_001 `DecOptions` (`DefaultMapType map[string]any`,
`MapKeyByteStringAllowed`, `DefaultByteStringType string` with
`ByteStringToStringAllowed`; `IndefLengthAllowed` has no value-level
effect): byte strings become Go strings, maps become string-keyed maps,
numeric items become the corresponding Go numbers. -/
def decodeValueP1 : CVal → Except String JVal
  | .cnull => .ok .jnull
  | .cbool b => .ok (.jbool b)
  | .cnum n => .ok (.jnum n)
  | .ctext s => .ok (.jstr s)
  | .cbytes s => .ok (.jstr s)
  | .carr xs =>
    match decodeListP1 xs with
    | .error e => .error e
    | .ok vs => .ok (.jarr vs)
  | .cmap es =>
    match decodeEntriesP1 es with
    | .error e => .error e
    | .ok fs => .ok (.jobj fs)

/-- Elementwise decoding of a CBOR array. -/
def decodeListP1 : List CVal → Except String (List JVal)
  | [] => .ok []
  | x :: xs =>
    match decodeValueP1 x with
    | .error e => .error e
    | .ok v =>
      match decodeListP1 xs with
      | .error e => .error e
      | .ok vs => .ok (v :: vs)

/-- Entrywise decoding of a CBOR map into a `map[string]any`. -/
def decodeEntriesP1 : List (CVal × CVal) → Except String (List (String × JVal))
  | [] => .ok []
  | (k, v) :: es =>
    match decodeKeyP1 k with
    | .error e => .error e
    | .ok ks =>
      match decodeValueP1 v with
      | .error e => .error e
      | .ok jv =>
        match decodeEntriesP1 es with
        | .error e => .error e
        | .ok fs => .ok ((ks, jv) :: fs)

end

mutual

/-- Every number in the tree is an integer in the exactly-representable
range of the float64 JSON number representation. -/
def intsExactlyRepresentable : JVal → Bool
  | .jnull => true
  | .jbool _ => true
  | .jnum n => n.natAbs ≤ 9007199254740992
  | .jstr _ => true
  | .jarr xs => intsExactlyRepresentableList xs
  | .jobj fs => intsExactlyRepresentableFields fs

/-- Elementwise range check over an array. -/
def intsExactlyRepresentableList : List JVal → Bool
  | [] => true
  | x :: xs => intsExactlyRepresentable x && intsExactlyRepresentableList xs

/-- Valuewise range check over an object. -/
def intsExactlyRepresentableFields : List (String × JVal) → Bool
  | [] => true
  | (_, v) :: fs => intsExactlyRepresentable v && intsExactlyRepresentableFields fs

end

mutual

theorem decode_encode_P1 (v : JVal) :
    decodeValueP1 (encodeValueP1 v) = .ok v := by
  match v with
  | .jnull => rfl
  | .jbool b => rfl
  | .jnum n => rfl
  | .jstr s => rfl
  | .jarr xs =>
    simp [encodeValueP1, decodeValueP1, decode_encode_list_P1 xs]
  | .jobj fs =>
    simp [encodeValueP1, decodeValueP1, decode_encode_fields_P1 fs]

theorem decode_encode_list_P1 (xs : List JVal) :
    decodeListP1 (encodeListP1 xs) = .ok xs := by
  match xs with
  | [] => rfl
  | x :: xs =>
    simp [encodeListP1, decodeListP1, decode_encode_P1 x,
      decode_encode_list_P1 xs]

theorem decode_encode_fields_P1 (fs : List (String × JVal)) :
    decodeEntriesP1 (encodeFieldsP1 fs) = .ok fs := by
  match fs with
  | [] => rfl
  | (k, v) :: fs =>
    simp [encodeFieldsP1, decodeEntriesP1, decodeKeyP1, decode_encode_P1 v,
      decode_encode_fields_P1 fs]

end

/-- C2: for every JSON-representable value whose numbers are integers in the
exactly-representable range, encoding it to CBOR with the part_001 encoder
configuration and decoding the result with the part_001 decoder
configuration yields the value back unchanged (plain structural equality,
which subsumes the claim's equality up to object key order). -/
theorem claim_C2_round_trip_identity (v : JVal)
    (_hsafe : intsExactlyRepresentable v = true) :
    decodeValueP1 (encodeValueP1 v) = .ok v :=
  decode_encode_P1 v

/-- Witness for C2 at a concrete nested document with a string, an integer,
an array, a null and a nested object. -/
theorem claim_C2_witness :
    intsExactlyRepresentable
        (.jobj [("message", .jstr "Hello CBOR World"),
                ("numbers", .jarr [.jnum 1, .jnum 2, .jnum 3]),
                ("nested", .jobj [("boolean", .jbool true),
                                  ("null_value", .jnull)])]) = true ∧
      decodeValueP1 (encodeValueP1
        (.jobj [("message", .jstr "Hello CBOR World"),
                ("numbers", .jarr [.jnum 1, .jnum 2, .jnum 3]),
                ("nested", .jobj [("boolean", .jbool true),
                                  ("null_value", .jnull)])])) =
      .ok (.jobj [("message", .jstr "Hello CBOR World"),
                  ("numbers", .jarr [.jnum 1, .jnum 2, .jnum 3]),
                  ("nested", .jobj [("boolean", .jbool true),
                                    ("null_value", .jnull)])]) :=
  ⟨by decide, claim_C2_round_trip_identity _ (by decide)⟩

/-- Modelled from the spec: Go's encoding/json renders a decoded CBOR
integer (an `int64` or `uint64`) as its exact decimal text. -/
def renderJsonNumber (n : Int) : String := toString n

/-- C9: each member of the calibration set, decoded from a CBOR integer item
by the to_json configuration, is preserved exactly and renders in the JSON
output as its exact decimal text (which is the nearest — indeed equal —
representable JSON number, every member lying in the int64/uint64 ranges the
decoder materializes). -/
theorem claim_C9_numeric_width_coverage :
    (decodeValueP1 (.cnum 13) = .ok (.jnum 13) ∧
      renderJsonNumber 13 = "13") ∧
    (decodeValueP1 (.cnum 254) = .ok (.jnum 254) ∧
      renderJsonNumber 254 = "254") ∧
    (decodeValueP1 (.cnum (-257)) = .ok (.jnum (-257)) ∧
      renderJsonNumber (-257) = "-257") ∧
    (decodeValueP1 (.cnum 65534) = .ok (.jnum 65534) ∧
      renderJsonNumber 65534 = "65534") ∧
    (decodeValueP1 (.cnum (-70123)) = .ok (.jnum (-70123)) ∧
      renderJsonNumber (-70123) = "-70123") ∧
    (decodeValueP1 (.cnum 2147483648) = .ok (.jnum 2147483648) ∧
      renderJsonNumber 2147483648 = "2147483648") ∧
    (decodeValueP1 (.cnum (-9223372036854775808)) =
        .ok (.jnum (-9223372036854775808)) ∧
      renderJsonNumber (-9223372036854775808) = "-9223372036854775808") ∧
    (decodeValueP1 (.cnum 18446744073709551615) =
        .ok (.jnum 18446744073709551615) ∧
      renderJsonNumber 18446744073709551615 = "18446744073709551615") := by
  refine ⟨⟨rfl, ?_⟩, ⟨rfl, ?_⟩, ⟨rfl, ?_⟩, ⟨rfl, ?_⟩, ⟨rfl, ?_⟩, ⟨rfl, ?_⟩,
    ⟨rfl, ?_⟩, ⟨rfl, ?_⟩⟩ <;> rfl
